import Mathlib

/-!
Verification development for the SCARA kinematics module (src/scara.c).

The C module is shallowly embedded over the reals: `float` values are
modelled as elements of `ℝ`, the C `NAN` results of `acosf` outside
`[-1, 1]` (and their propagation into the joint angles, detected by the
caller's `isnan` check) are modelled by `Option` (`none` = NaN result),
`atan2f` is modelled by `Complex.arg`, and the `N_AXIS`-sized coordinate
vectors are modelled with the default `N_AXIS = 3` (axes `X`, `Y`, `Z`;
`Z` is the pass-through axis above the two driven motors `A = X`,
`B = Y`).  `int32_t` machine positions are modelled as `ℤ`, with the C
float-to-int conversion (truncation toward zero) made explicit.
-/

noncomputable section

namespace Scara

open Real

/-- `#define MAX_SEG_LENGTH_MM 2.0f` (src/scara.c line 39). -/
def MAX_SEG_LENGTH_MM : ℝ := 2

/-- `#define SCARA_L1 500.0f` (src/scara.c line 42). -/
def SCARA_L1 : ℝ := 500

/-- `#define SCARA_L2 450.0f` (src/scara.c line 43). -/
def SCARA_L2 : ℝ := 450

/-- Degrees-to-radians factor `RADDEG` from grblHAL's nuts_bolts.h
(the code computes `cosf(q1*RADDEG)` on a `q1` given in degrees). -/
def RADDEG : ℝ := Real.pi / 180

/-- Radians-to-degrees factor `DEGRAD` from grblHAL's nuts_bolts.h. -/
def DEGRAD : ℝ := 180 / Real.pi

/-- `xy_t`: cartesian pair (src/scara.c lines 54-57). -/
@[ext] structure xy_t where
  x : ℝ
  y : ℝ

/-- `q_t`: joint-angle pair (src/scara.c lines 60-63). -/
@[ext] structure q_t where
  q1 : ℝ
  q2 : ℝ

/-- `machine_t`: the two link lengths (src/scara.c lines 66-69). -/
structure machine_t where
  l1 : ℝ
  l2 : ℝ

/-- The module's `machine` global, as set by `scara_init`
(src/scara.c lines 388-389). -/
def machine : machine_t := ⟨SCARA_L1, SCARA_L2⟩

@[simp] lemma machine_l1 : machine.l1 = 500 := rfl

@[simp] lemma machine_l2 : machine.l2 = 450 := rfl

/-- C `atan2f(y, x)`, modelled as the principal argument of the complex
number `x + y·i` (range `(-π, π]`, `atan2f(0,0) = 0`). -/
def atan2f (y x : ℝ) : ℝ := Complex.arg ⟨x, y⟩

/-- `q_to_xy`: forward kinematics, absolute joint angles in degrees to
cartesian XY (src/scara.c lines 81-86). -/
def q_to_xy (q1 q2 : ℝ) : xy_t :=
  ⟨machine.l1 * Real.cos (q1 * RADDEG) + machine.l2 * Real.cos (q2 * RADDEG),
   machine.l1 * Real.sin (q1 * RADDEG) + machine.l2 * Real.sin (q2 * RADDEG)⟩

/-- The local `cos_q12` of `xy_to_q` (src/scara.c line 95): the unclamped
law-of-cosines ratio. -/
def cos_q12 (x y : ℝ) : ℝ :=
  (x * x + y * y - machine.l1 * machine.l1 - machine.l2 * machine.l2) /
    (2 * machine.l1 * machine.l2)

/-- The local `q12` of `xy_to_q` (src/scara.c line 96): the relative angle
between the two links, defined when `cos_q12 ∈ [-1, 1]`. -/
def q12 (x y : ℝ) : ℝ := Real.arccos (cos_q12 x y)

/-- The local `beta` of `xy_to_q` (src/scara.c line 97): the angle between
link 1 and the line from the origin to the target. -/
def beta (x y : ℝ) : ℝ :=
  atan2f (machine.l2 * Real.sin (q12 x y)) (machine.l1 + machine.l2 * cos_q12 x y)

open Classical in
/-- `xy_to_q`: inverse kinematics, cartesian XY to absolute joint angles in
degrees (src/scara.c lines 89-117), with the build-time branch
`SCARA_ELBOW_UP` / `SCARA_ABSOLUTE_JOINT_ANGLES` both `On` as in the source
(so `q1 = atan2(y,x) + beta`, `q12` is negated, and `q2 = q1 + q12`).
`none` models the NaN results: the explicit `q.q1 = q.q2 = NAN` of the
out-of-reach branch, and the NaN produced by `acosf` when the unclamped
law-of-cosines ratio `cos_q12` falls outside `[-1, 1]` (which then
propagates into both joint angles). -/
def xy_to_q (x y : ℝ) : Option q_t :=
  if x * x + y * y > (machine.l1 + machine.l2) * (machine.l1 + machine.l2) then
    none
  else if cos_q12 x y < -1 ∨ 1 < cos_q12 x y then
    none
  else
    some ⟨(atan2f y x + beta x y) * DEGRAD,
          (atan2f y x + beta x y + -q12 x y) * DEGRAD⟩

/-- `coord_data_t` with `N_AXIS = 3`: X, Y and the pass-through Z axis. -/
@[ext] structure coord_data_t where
  x : ℝ
  y : ℝ
  z : ℝ

/-- `scara_transform_to_cartesian` (src/scara.c lines 123-143): passes the
higher axes through and applies forward kinematics to the two motors. -/
def scara_transform_to_cartesian (angles : coord_data_t) : coord_data_t :=
  let xy := q_to_xy angles.x angles.y
  ⟨xy.x, xy.y, angles.z⟩

/-- `scara_transform_from_cartesian` (src/scara.c lines 161-189).  It first
overwrites the pass-through components of the output buffer `target_q`,
then applies inverse kinematics; on a NaN result it raises the soft-limit
alarm and returns `NULL`, leaving the two driven components of the buffer
untouched.  The returned `Bool` is `true` exactly when the alarm was
raised (and the C function returned `NULL`). -/
def scara_transform_from_cartesian (target_q position_xy : coord_data_t) :
    coord_data_t × Bool :=
  let t : coord_data_t := ⟨target_q.x, target_q.y, position_xy.z⟩
  match xy_to_q position_xy.x position_xy.y with
  | none => (t, true)
  | some q => (⟨q.q1, q.q2, t.z⟩, false)

/-- The static state of `scara_segment_line` (src/scara.c lines 196-280)
together with the module-level `jog_cancel` flag and a latch recording
whether `system_raise_alarm(Alarm_SoftLimit)` has been raised by a call of
the current session. -/
structure SegState where
  do_segments : Bool
  iterations : ℕ
  delta : coord_data_t
  segment_target : coord_data_t
  current_position : coord_data_t
  final_target : coord_data_t
  jog_cancel : Bool
  alarm : Bool

/-- The cartesian current position computed by the `init` branch
(src/scara.c line 213). -/
def seg_current_position (position : coord_data_t) : coord_data_t :=
  scara_transform_to_cartesian position

/-- The total `delta` of the `init` branch (src/scara.c lines 216-220). -/
def seg_delta_total (target position : coord_data_t) : coord_data_t :=
  ⟨target.x - (seg_current_position position).x,
   target.y - (seg_current_position position).y,
   target.z - (seg_current_position position).z⟩

/-- The planar `distance` of the `init` branch (src/scara.c line 223). -/
def seg_distance (target position : coord_data_t) : ℝ :=
  Real.sqrt ((seg_delta_total target position).x * (seg_delta_total target position).x +
             (seg_delta_total target position).y * (seg_delta_total target position).y)

open Classical in
/-- `do_segments = !rapid_motion && distance > MAX_SEG_LENGTH_MM`
(src/scara.c line 224). -/
def seg_do_segments (target position : coord_data_t) (rapid : Bool) : Bool :=
  if rapid = false ∧ MAX_SEG_LENGTH_MM < seg_distance target position then true else false

open Classical in
/-- The segment count before the `iterations++` (src/scara.c lines 227-242):
`ceil(distance / MAX_SEG_LENGTH_MM)` when segmenting, else 1. -/
def seg_iterations_init (target position : coord_data_t) (rapid : Bool) : ℕ :=
  if seg_do_segments target position rapid = true then
    ⌈seg_distance target position / MAX_SEG_LENGTH_MM⌉₊
  else 1

open Classical in
/-- The per-segment `delta` stored by `init` (src/scara.c lines 229-233):
the total delta divided by the segment count when segmenting. -/
def seg_delta_step (target position : coord_data_t) (rapid : Bool) : coord_data_t :=
  if seg_do_segments target position rapid = true then
    ⟨(seg_delta_total target position).x / (seg_iterations_init target position rapid : ℝ),
     (seg_delta_total target position).y / (seg_iterations_init target position rapid : ℝ),
     (seg_delta_total target position).z / (seg_iterations_init target position rapid : ℝ)⟩
  else seg_delta_total target position

open Classical in
/-- The initial `segment_target` stored by `init` (src/scara.c lines
236 and 241): the current position when segmenting, else the final target. -/
def seg_target_init (target position : coord_data_t) (rapid : Bool) : coord_data_t :=
  if seg_do_segments target position rapid = true then seg_current_position position
  else target

/-- The `init = true` call of `scara_segment_line` (src/scara.c lines
205-249 followed by the common tail, lines 266-279): clears `jog_cancel`,
sets up the session state, converts the segment target to joint angles
into the `current_position` buffer (ignoring the `NULL` of an unreachable
target) and returns the buffer unless `iterations == 0 || jog_cancel`. -/
def scara_segment_line_init (target position : coord_data_t) (rapid : Bool) :
    SegState × Option coord_data_t :=
  let tf := scara_transform_from_cartesian (seg_current_position position)
    (seg_target_init target position rapid)
  let s : SegState :=
    { do_segments := seg_do_segments target position rapid
      iterations := seg_iterations_init target position rapid + 1
      delta := seg_delta_step target position rapid
      segment_target := seg_target_init target position rapid
      current_position := tf.1
      final_target := target
      jog_cancel := false
      alarm := tf.2 }
  (s, if s.iterations = 0 ∨ s.jog_cancel = true then none else some tf.1)

/-- An `init = false` call of `scara_segment_line` (src/scara.c lines
251-279): decrements `iterations`, advances the segment target by `delta`
while `do_segments && iterations > 1` and otherwise snaps it to the final
target by copy, converts it to joint angles into the `current_position`
buffer (ignoring the `NULL` of an unreachable target) and returns the
buffer unless `iterations == 0 || jog_cancel`. -/
def scara_segment_line_next (s : SegState) : SegState × Option coord_data_t :=
  let iterations := s.iterations - 1
  let segment_target : coord_data_t :=
    if s.do_segments = true ∧ 1 < iterations then
      ⟨s.segment_target.x + s.delta.x, s.segment_target.y + s.delta.y,
       s.segment_target.z + s.delta.z⟩
    else s.final_target
  let tf := scara_transform_from_cartesian s.current_position segment_target
  ({ do_segments := s.do_segments
     iterations := iterations
     delta := s.delta
     segment_target := segment_target
     current_position := tf.1
     final_target := s.final_target
     jog_cancel := s.jog_cancel
     alarm := s.alarm || tf.2 },
   if iterations = 0 ∨ s.jog_cancel = true then none else some tf.1)

/-- `cancel_jog` (src/scara.c lines 355-358): sets the module-level
`jog_cancel` flag. -/
def cancel_jog (s : SegState) : SegState := { s with jog_cancel := true }

/-- Iterating the state of `scara_segment_line` over `k` non-init calls. -/
def segStepN (s : SegState) : ℕ → SegState
  | 0 => s
  | k + 1 => (scara_segment_line_next (segStepN s k)).1

/-- The value returned by the `k`-th (1-based) non-init call of
`scara_segment_line`. -/
def segOut (s : SegState) (k : ℕ) : Option coord_data_t :=
  (scara_segment_line_next (segStepN s (k - 1))).2

/-- System/settings state used by the homing helpers: `sys.position` is the
`int32_t` step-position array. -/
structure limits_state_t where
  position : Fin 3 → ℤ

/-- Per-axis settings consumed by the module. -/
structure axis_settings_t where
  steps_per_mm : ℝ
  max_travel : ℝ

/-- Homing settings consumed by `scara_limits_set_machine_positions`. -/
structure homing_settings_t where
  force_set_origin : Bool
  dir_mask : ℕ
  pulloff : ℝ

/-- The slice of the grblHAL `settings` global read by this module. -/
structure settings_t where
  axis : Fin 3 → axis_settings_t
  homing : homing_settings_t

/-- C float-to-`int32_t` conversion: truncation toward zero. -/
def truncf (x : ℝ) : ℤ := if 0 ≤ x then ⌊x⌋ else ⌈x⌉

/-- C `lroundf`: rounding to nearest, halves away from zero. -/
def lroundf (x : ℝ) : ℤ := if 0 ≤ x then ⌊x + 1 / 2⌋ else ⌈x - 1 / 2⌉

/-- `scara_limits_set_target_pos` (src/scara.c lines 294-314): recomputes
the joint angle of the given axis from the step-derived planar position.
The `x`/`y` cases use the (possibly NaN) result of `xy_to_q` in a
float-to-int conversion, so they are undefined (`none`) when `xy_to_q`
yields NaN; the default case writes a plain 0 and never touches it. -/
def scara_limits_set_target_pos (st : settings_t) (idx : Fin 3)
    (sys : limits_state_t) : Option limits_state_t :=
  let x := (sys.position 0 : ℝ) / (st.axis 0).steps_per_mm
  let y := (sys.position 1 : ℝ) / (st.axis 1).steps_per_mm
  if idx = 0 then
    (xy_to_q x y).map fun q =>
      ⟨Function.update sys.position 0 (truncf (q.q1 * (st.axis 0).steps_per_mm))⟩
  else if idx = 1 then
    (xy_to_q x y).map fun q =>
      ⟨Function.update sys.position 1 (truncf (q.q2 * (st.axis 1).steps_per_mm))⟩
  else
    some ⟨Function.update sys.position idx 0⟩

/-- The `pulloff` value computed at the top of a loop iteration of
`scara_limits_set_machine_positions` when `force_set_origin` is set
(src/scara.c lines 330-334), for the pre-decrement index `idx`. -/
def limits_pulloff (st : settings_t) (idx : Fin 3) : ℤ :=
  if st.homing.dir_mask &&& 2 ^ (idx : ℕ) ≠ 0 then
    lroundf (((st.axis idx).max_travel + st.homing.pulloff) * (st.axis idx).steps_per_mm)
  else
    lroundf (-st.homing.pulloff * (st.axis idx).steps_per_mm)

/-- `scara_limits_set_machine_positions` (src/scara.c lines 318-350).
With `N_AXIS = 3` the entry guard `cycle.mask & bit(--idx)` tests only the
Z bit; when it passes, the loop body runs with `switch(--idx)` hitting
`Y_AXIS` first and `X_AXIS` second, each writing the joint angle recomputed
from the entry-time planar position (plus `pulloff` when origin-forcing is
on).  The driven writes convert a possibly-NaN float to `int32_t`, hence
`none` when `xy_to_q` yields NaN. -/
def scara_limits_set_machine_positions (st : settings_t) (cycle_mask : ℕ)
    (sys : limits_state_t) : Option limits_state_t :=
  let x := (sys.position 0 : ℝ) / (st.axis 0).steps_per_mm
  let y := (sys.position 1 : ℝ) / (st.axis 1).steps_per_mm
  if cycle_mask &&& 2 ^ 2 ≠ 0 then
    let pulloff1 : ℤ :=
      if st.homing.force_set_origin = true then limits_pulloff st 2 else 0
    match xy_to_q x y with
    | none => none
    | some q =>
      let pos1 := Function.update sys.position 1
        (truncf (q.q2 * (st.axis 1).steps_per_mm + (pulloff1 : ℝ)))
      let pulloff2 : ℤ :=
        if st.homing.force_set_origin = true then limits_pulloff st 1 else pulloff1
      let pos2 := Function.update pos1 0
        (truncf (q.q1 * (st.axis 0).steps_per_mm + (pulloff2 : ℝ)))
      some ⟨pos2⟩
  else some sys

/-! ### Basic facts about the embedded definitions -/

lemma DEGRAD_pos : 0 < DEGRAD := by
  have := Real.pi_pos
  unfold DEGRAD
  positivity

lemma RADDEG_mul_DEGRAD : RADDEG * DEGRAD = 1 := by
  unfold RADDEG DEGRAD
  field_simp

lemma DEGRAD_mul_RADDEG : DEGRAD * RADDEG = 1 := by
  rw [mul_comm]; exact RADDEG_mul_DEGRAD

lemma cos_q12_eq (x y : ℝ) : cos_q12 x y = (x * x + y * y - 452500) / 450000 := by
  unfold cos_q12
  norm_num
  ring

/-- `Complex.arg` of a nonnegative real point on the x-axis is 0. -/
lemma arg_mk_zero_im {x : ℝ} (hx : 0 ≤ x) : Complex.arg ⟨x, 0⟩ = 0 := by
  have h : (⟨x, 0⟩ : ℂ) = (x : ℂ) := by
    apply Complex.ext <;> simp
  rw [h]
  exact Complex.arg_ofReal_of_nonneg hx

/-- `Complex.arg` of a point on the positive y-axis is `π/2`. -/
lemma arg_mk_zero_re {y : ℝ} (hy : 0 < y) : Complex.arg ⟨0, y⟩ = Real.pi / 2 := by
  have h : (⟨0, y⟩ : ℂ) = (y : ℂ) * Complex.I := by
    apply Complex.ext <;> simp
  rw [h, Complex.arg_real_mul _ hy, Complex.arg_I]

lemma xy_to_q_none_far {x y : ℝ}
    (h : (machine.l1 + machine.l2) * (machine.l1 + machine.l2) < x * x + y * y) :
    xy_to_q x y = none := by
  unfold xy_to_q
  rw [if_pos h]

lemma xy_to_q_none_nan {x y : ℝ}
    (h1 : ¬ (machine.l1 + machine.l2) * (machine.l1 + machine.l2) < x * x + y * y)
    (h2 : cos_q12 x y < -1) :
    xy_to_q x y = none := by
  unfold xy_to_q
  rw [if_neg h1, if_pos (Or.inl h2)]

lemma xy_to_q_some {x y : ℝ}
    (h1 : ¬ (machine.l1 + machine.l2) * (machine.l1 + machine.l2) < x * x + y * y)
    (h2 : -1 ≤ cos_q12 x y) (h3 : cos_q12 x y ≤ 1) :
    xy_to_q x y = some ⟨(atan2f y x + beta x y) * DEGRAD,
                        (atan2f y x + beta x y + -q12 x y) * DEGRAD⟩ := by
  unfold xy_to_q
  rw [if_neg h1, if_neg (by push_neg; exact ⟨h2, h3⟩)]

lemma xy_to_q_some_elim {x y : ℝ} {q : q_t} (h : xy_to_q x y = some q) :
    x * x + y * y ≤ (machine.l1 + machine.l2) * (machine.l1 + machine.l2) ∧
    -1 ≤ cos_q12 x y ∧ cos_q12 x y ≤ 1 ∧
    q = ⟨(atan2f y x + beta x y) * DEGRAD,
         (atan2f y x + beta x y + -q12 x y) * DEGRAD⟩ := by
  unfold xy_to_q at h
  by_cases h1 : x * x + y * y > (machine.l1 + machine.l2) * (machine.l1 + machine.l2)
  · rw [if_pos h1] at h
    exact absurd h (by simp)
  · rw [if_neg h1] at h
    by_cases h2 : cos_q12 x y < -1 ∨ 1 < cos_q12 x y
    · rw [if_pos h2] at h
      exact absurd h (by simp)
    · rw [if_neg h2] at h
      push_neg at h1 h2
      exact ⟨h1, h2.1, h2.2, (Option.some_inj.mp h).symm⟩

/-- Full extension along the positive x-axis: `xy_to_q (950, 0) = (0°, 0°)`. -/
lemma xy_to_q_950_0 : xy_to_q 950 0 = some ⟨0, 0⟩ := by
  have hc : cos_q12 950 0 = 1 := by rw [cos_q12_eq]; norm_num
  have hq12 : q12 950 0 = 0 := by unfold q12; rw [hc, Real.arccos_one]
  have hbeta : beta 950 0 = 0 := by
    unfold beta
    rw [hq12, hc, Real.sin_zero, mul_zero]
    unfold atan2f
    exact arg_mk_zero_im (by norm_num)
  rw [xy_to_q_some (by norm_num) (by rw [hc]; norm_num) (le_of_eq hc)]
  unfold atan2f
  rw [arg_mk_zero_im (by norm_num : (0:ℝ) ≤ 950), hbeta, hq12]
  norm_num

/-- Full extension along the positive y-axis: `xy_to_q (0, 950) = (90°, 90°)`. -/
lemma xy_to_q_0_950 : xy_to_q 0 950 = some ⟨90, 90⟩ := by
  have hc : cos_q12 0 950 = 1 := by rw [cos_q12_eq]; norm_num
  have hq12 : q12 0 950 = 0 := by unfold q12; rw [hc, Real.arccos_one]
  have hbeta : beta 0 950 = 0 := by
    unfold beta
    rw [hq12, hc, Real.sin_zero, mul_zero]
    unfold atan2f
    exact arg_mk_zero_im (by norm_num)
  rw [xy_to_q_some (by norm_num) (by rw [hc]; norm_num) (le_of_eq hc)]
  unfold atan2f
  rw [arg_mk_zero_re (by norm_num : (0:ℝ) < 950), hbeta, hq12]
  have hpi := Real.pi_ne_zero
  have h90 : Real.pi / 2 * DEGRAD = 90 := by
    unfold DEGRAD
    field_simp
    ring
  simp only [Option.some.injEq, q_t.mk.injEq, add_zero, neg_zero]
  exact ⟨h90, h90⟩

/-- The origin lies strictly inside the reach disc, yet the unclamped
law-of-cosines ratio falls below `-1` there, so `xy_to_q` yields NaN. -/
lemma xy_to_q_0_0 : xy_to_q 0 0 = none := by
  apply xy_to_q_none_nan (by norm_num)
  rw [cos_q12_eq]; norm_num

/-- `(30, 0)` lies strictly inside the reach disc (indeed inside the inner
disc of radius `l1 - l2 = 50`), and `xy_to_q` yields NaN there. -/
lemma xy_to_q_30_0 : xy_to_q 30 0 = none := by
  apply xy_to_q_none_nan (by norm_num)
  rw [cos_q12_eq]; norm_num

/-- `(1000, 0)` is out of reach. -/
lemma xy_to_q_1000_0 : xy_to_q 1000 0 = none := by
  apply xy_to_q_none_far; norm_num

/-- Forward kinematics at the power-up pose `(0°, -90°)`. -/
lemma q_to_xy_0_neg90 : q_to_xy 0 (-90) = ⟨500, -450⟩ := by
  unfold q_to_xy RADDEG
  have h0 : (0 : ℝ) * (Real.pi / 180) = 0 := by ring
  have h90 : (-90 : ℝ) * (Real.pi / 180) = -(Real.pi / 2) := by ring
  rw [h0, h90, Real.cos_zero, Real.sin_zero, Real.cos_neg, Real.sin_neg,
    Real.cos_pi_div_two, Real.sin_pi_div_two]
  congr 1 <;> norm_num

/-- Forward kinematics at `(360°, -90°)`: the same cartesian point as the
power-up pose `(0°, -90°)`. -/
lemma q_to_xy_360_neg90 : q_to_xy 360 (-90) = ⟨500, -450⟩ := by
  unfold q_to_xy RADDEG
  have h360 : (360 : ℝ) * (Real.pi / 180) = 2 * Real.pi := by ring
  have h90 : (-90 : ℝ) * (Real.pi / 180) = -(Real.pi / 2) := by ring
  rw [h360, h90, Real.cos_two_pi, Real.sin_two_pi, Real.cos_neg, Real.sin_neg,
    Real.cos_pi_div_two, Real.sin_pi_div_two]
  congr 1 <;> norm_num

/-! ### Exact round-trip: inverse kinematics followed by forward kinematics -/

set_option maxHeartbeats 1000000 in
/-- Whenever `xy_to_q` succeeds, applying the forward kinematics to its
result reproduces the cartesian input exactly. -/
lemma q_to_xy_xy_to_q {x y : ℝ} {q : q_t} (h : xy_to_q x y = some q) :
    q_to_xy q.q1 q.q2 = ⟨x, y⟩ := by
  obtain ⟨hfar, hc1, hc2, hq⟩ := xy_to_q_some_elim h
  subst hq
  set c := cos_q12 x y with hcdef
  set t := q12 x y with htdef
  set s := Real.sin t with hsdef
  set φ := atan2f y x with hφdef
  set β := beta x y with hβdef
  have hcval : c * 450000 = x * x + y * y - 452500 := by
    rw [hcdef, cos_q12_eq]
    field_simp
  have hr2lo : 2500 ≤ x * x + y * y := by linarith
  have hXne : x * x + y * y ≠ 0 := by linarith
  have hz : (⟨x, y⟩ : ℂ) ≠ 0 := by
    intro h0
    rw [Complex.ext_iff] at h0
    simp only [Complex.zero_re, Complex.zero_im] at h0
    rw [h0.1, h0.2] at hr2lo
    norm_num at hr2lo
  set r := Complex.abs (⟨x, y⟩ : ℂ) with hrdef
  have hrsq : r ^ 2 = x * x + y * y := by
    rw [hrdef, Complex.sq_abs, Complex.normSq_mk]
  have hrpos : 0 < r := Complex.abs.pos hz
  have hr0 : r ≠ 0 := ne_of_gt hrpos
  have hcos_t : Real.cos t = c := Real.cos_arccos hc1 hc2
  have hs_sq : s ^ 2 = 1 - c ^ 2 := by
    rw [hsdef, htdef]
    show Real.sin (Real.arccos c) ^ 2 = 1 - c ^ 2
    rw [Real.sin_arccos, Real.sq_sqrt (by nlinarith : (0:ℝ) ≤ 1 - c ^ 2)]
  set w : ℂ := ⟨machine.l1 + machine.l2 * c, machine.l2 * s⟩ with hwdef
  have hβw : β = Complex.arg w := rfl
  have hwre : 0 < w.re := by
    rw [hwdef]
    show (0:ℝ) < machine.l1 + machine.l2 * c
    simp only [machine_l1, machine_l2]
    linarith
  have hw0 : w ≠ 0 := by
    intro h0
    rw [h0] at hwre
    simp at hwre
  have habsw : Complex.abs w = r := by
    rw [hwdef, hrdef, Complex.abs_apply, Complex.abs_apply]
    congr 1
    rw [Complex.normSq_mk, Complex.normSq_mk]
    simp only [machine_l1, machine_l2]
    linear_combination (202500:ℝ) * hs_sq + hcval
  have hcosβr : r * Real.cos β = 500 + 450 * c := by
    rw [hβw, Complex.cos_arg hw0, habsw, hwdef]
    show r * ((machine.l1 + machine.l2 * c) / r) = 500 + 450 * c
    simp only [machine_l1, machine_l2]
    field_simp
  have hsinβr : r * Real.sin β = 450 * s := by
    rw [hβw, Complex.sin_arg, habsw, hwdef]
    show r * (machine.l2 * s / r) = 450 * s
    simp only [machine_l2]
    field_simp
  have hcosφr : r * Real.cos φ = x := by
    rw [hφdef]
    show r * Real.cos (Complex.arg ⟨x, y⟩) = x
    rw [Complex.cos_arg hz, ← hrdef]
    field_simp
  have hsinφr : r * Real.sin φ = y := by
    rw [hφdef]
    show r * Real.sin (Complex.arg ⟨x, y⟩) = y
    rw [Complex.sin_arg, ← hrdef]
    field_simp
  have hP : (x * x + y * y) * Real.cos (φ + β) = x * (500 + 450 * c) - y * (450 * s) := by
    rw [Real.cos_add, ← hrsq]
    calc r ^ 2 * (Real.cos φ * Real.cos β - Real.sin φ * Real.sin β)
        = (r * Real.cos φ) * (r * Real.cos β) - (r * Real.sin φ) * (r * Real.sin β) := by ring
      _ = x * (500 + 450 * c) - y * (450 * s) := by
          rw [hcosφr, hcosβr, hsinφr, hsinβr]
  have hQ : (x * x + y * y) * Real.sin (φ + β) = y * (500 + 450 * c) + x * (450 * s) := by
    rw [Real.sin_add, ← hrsq]
    calc r ^ 2 * (Real.sin φ * Real.cos β + Real.cos φ * Real.sin β)
        = (r * Real.sin φ) * (r * Real.cos β) + (r * Real.cos φ) * (r * Real.sin β) := by ring
      _ = y * (500 + 450 * c) + x * (450 * s) := by
          rw [hsinφr, hcosβr, hcosφr, hsinβr]
  have hexpc : Real.cos (φ + β + -t) = Real.cos (φ + β) * c + Real.sin (φ + β) * s := by
    rw [Real.cos_add (φ + β) (-t), Real.cos_neg, Real.sin_neg, hcos_t, ← hsdef]
    ring
  have hexps : Real.sin (φ + β + -t) = Real.sin (φ + β) * c - Real.cos (φ + β) * s := by
    rw [Real.sin_add (φ + β) (-t), Real.cos_neg, Real.sin_neg, hcos_t, ← hsdef]
    ring
  have hang : ∀ u : ℝ, u * DEGRAD * RADDEG = u := by
    intro u
    rw [mul_assoc, DEGRAD_mul_RADDEG, mul_one]
  show q_to_xy ((φ + β) * DEGRAD) ((φ + β + -t) * DEGRAD) = ⟨x, y⟩
  unfold q_to_xy
  rw [hang, hang]
  simp only [machine_l1, machine_l2]
  have hG1 : 500 * Real.cos (φ + β) + 450 * Real.cos (φ + β + -t) = x := by
    rw [hexpc]
    apply mul_left_cancel₀ hXne
    linear_combination (500 + 450 * c) * hP + (450 * s) * hQ + (202500 * x) * hs_sq + x * hcval
  have hG2 : 500 * Real.sin (φ + β) + 450 * Real.sin (φ + β + -t) = y := by
    rw [hexps]
    apply mul_left_cancel₀ hXne
    linear_combination (500 + 450 * c) * hQ - (450 * s) * hP + (202500 * y) * hs_sq + y * hcval
  rw [hG1, hG2]

/-- Rotating a nonzero complex number `w` by `e^{ia}` adds `a` to its
argument, provided the sum stays within the principal range. -/
lemma arg_exp_mul_eq (a : ℝ) (w : ℂ) (hw : w ≠ 0)
    (hlo : -Real.pi < a + w.arg) (hhi : a + w.arg ≤ Real.pi) :
    (Complex.exp (a * Complex.I) * w).arg = a + w.arg := by
  have habs : 0 < Complex.abs w := Complex.abs.pos hw
  have key : Complex.exp (↑a * Complex.I) * w
      = ↑(Complex.abs w) *
        (Complex.cos ↑(a + w.arg) + Complex.sin ↑(a + w.arg) * Complex.I) := by
    conv_lhs => rw [← Complex.abs_mul_cos_add_sin_mul_I w]
    rw [← Complex.exp_mul_I, ← Complex.exp_mul_I, Complex.ofReal_add, add_mul,
      Complex.exp_add]
    ring
  rw [key]
  exact Complex.arg_mul_cos_add_sin_mul_I habs (Set.mem_Ioc.mpr ⟨hlo, hhi⟩)

set_option maxHeartbeats 1000000 in
/-- Forward kinematics followed by inverse kinematics is the identity on the
elbow-up branch: whenever `q1 ∈ (-90°, 180°]` and the relative angle
`q2 - q1 ∈ [-180°, 0°]`, `xy_to_q` recovers `(q1, q2)` exactly. -/
lemma xy_to_q_q_to_xy (d1 d2 : ℝ) (h1 : -90 < d1) (h2 : d1 ≤ 180)
    (h3 : -180 ≤ d2 - d1) (h4 : d2 - d1 ≤ 0) :
    xy_to_q (q_to_xy d1 d2).x (q_to_xy d1 d2).y = some ⟨d1, d2⟩ := by
  have hpi := Real.pi_pos
  set a := d1 * RADDEG with hadef
  set b := d2 * RADDEG with hbdef
  have hR : RADDEG = Real.pi / 180 := rfl
  have ha1 : -(Real.pi / 2) < a := by
    have h := mul_pos (show (0:ℝ) < d1 + 90 by linarith) hpi
    rw [hadef, hR]; nlinarith [h]
  have ha2 : a ≤ Real.pi := by
    have h := mul_nonneg (show (0:ℝ) ≤ 180 - d1 by linarith) (le_of_lt hpi)
    rw [hadef, hR]; nlinarith [h]
  have hθ : b - a = (d2 - d1) * (Real.pi / 180) := by rw [hadef, hbdef, hR]; ring
  have hθ1 : -Real.pi ≤ b - a := by
    have h := mul_nonneg (show (0:ℝ) ≤ d2 - d1 + 180 by linarith) (le_of_lt hpi)
    rw [hθ]; nlinarith [h]
  have hθ2 : b - a ≤ 0 := by
    have h := mul_nonneg (show (0:ℝ) ≤ d1 - d2 by linarith) (le_of_lt hpi)
    rw [hθ]; nlinarith [h]
  have hcosb : ∀ u v : ℝ,
      Real.cos v = Real.cos u * Real.cos (v - u) - Real.sin u * Real.sin (v - u) := by
    intro u v
    have h := Real.cos_add u (v - u)
    rw [show u + (v - u) = v by ring] at h
    rw [h]
  have hsinb : ∀ u v : ℝ,
      Real.sin v = Real.sin u * Real.cos (v - u) + Real.cos u * Real.sin (v - u) := by
    intro u v
    have h := Real.sin_add u (v - u)
    rw [show u + (v - u) = v by ring] at h
    rw [h]
  have hxval : (q_to_xy d1 d2).x = 500 * Real.cos a + 450 * Real.cos b := by
    show machine.l1 * Real.cos (d1 * RADDEG) + machine.l2 * Real.cos (d2 * RADDEG)
      = 500 * Real.cos a + 450 * Real.cos b
    rw [machine_l1, machine_l2, ← hadef, ← hbdef]
  have hyval : (q_to_xy d1 d2).y = 500 * Real.sin a + 450 * Real.sin b := by
    show machine.l1 * Real.sin (d1 * RADDEG) + machine.l2 * Real.sin (d2 * RADDEG)
      = 500 * Real.sin a + 450 * Real.sin b
    rw [machine_l1, machine_l2, ← hadef, ← hbdef]
  have hr2 : (q_to_xy d1 d2).x * (q_to_xy d1 d2).x + (q_to_xy d1 d2).y * (q_to_xy d1 d2).y
      = 452500 + 450000 * Real.cos (b - a) := by
    rw [hxval, hyval]
    linear_combination (250000:ℝ) * Real.sin_sq_add_cos_sq a +
      (202500:ℝ) * Real.sin_sq_add_cos_sq b - (450000:ℝ) * Real.cos_sub b a
  have hfar : ¬ (machine.l1 + machine.l2) * (machine.l1 + machine.l2) <
      (q_to_xy d1 d2).x * (q_to_xy d1 d2).x + (q_to_xy d1 d2).y * (q_to_xy d1 d2).y := by
    rw [machine_l1, machine_l2, hr2]
    have := Real.cos_le_one (b - a)
    push_neg
    linarith
  have hcq : cos_q12 (q_to_xy d1 d2).x (q_to_xy d1 d2).y = Real.cos (b - a) := by
    rw [cos_q12_eq, hr2]
    field_simp
  have hc1 : -1 ≤ cos_q12 (q_to_xy d1 d2).x (q_to_xy d1 d2).y := by
    rw [hcq]; exact Real.neg_one_le_cos _
  have hc2 : cos_q12 (q_to_xy d1 d2).x (q_to_xy d1 d2).y ≤ 1 := by
    rw [hcq]; exact Real.cos_le_one _
  have hq12v : q12 (q_to_xy d1 d2).x (q_to_xy d1 d2).y = a - b := by
    unfold q12
    rw [hcq, ← Real.cos_neg, neg_sub,
      Real.arccos_cos (by linarith : (0:ℝ) ≤ a - b) (by linarith : a - b ≤ Real.pi)]
  have hsinq12 : Real.sin (q12 (q_to_xy d1 d2).x (q_to_xy d1 d2).y)
      = -Real.sin (b - a) := by
    rw [hq12v, show a - b = -(b - a) by ring, Real.sin_neg]
  set w : ℂ := ⟨500 + 450 * Real.cos (b - a), 450 * Real.sin (b - a)⟩ with hwdef
  have hwre_val : w.re = 500 + 450 * Real.cos (b - a) := rfl
  have hwim_val : w.im = 450 * Real.sin (b - a) := rfl
  have hwre : 0 < w.re := by
    rw [hwre_val]
    have := Real.neg_one_le_cos (b - a)
    linarith
  have hw0 : w ≠ 0 := by
    intro h0
    rw [h0] at hwre
    simp at hwre
  have hargw_bnd : -(Real.pi / 2) < Complex.arg w ∧ Complex.arg w < Real.pi / 2 :=
    abs_lt.mp (Complex.abs_arg_lt_pi_div_two_iff.mpr (Or.inl hwre))
  have him_le : w.im ≤ 0 := by
    rw [hwim_val]
    have hs : Real.sin (b - a) ≤ 0 := by
      have := Real.sin_nonneg_of_nonneg_of_le_pi
        (show (0:ℝ) ≤ -(b - a) by linarith) (by linarith : -(b - a) ≤ Real.pi)
      rw [Real.sin_neg] at this
      linarith
    linarith
  have hargw_le : Complex.arg w ≤ 0 := by
    rcases lt_or_eq_of_le him_le with him | him
    · exact le_of_lt (Complex.arg_neg_iff.mpr him)
    · have hw' : w = ((w.re : ℝ) : ℂ) := by
        apply Complex.ext
        · rw [Complex.ofReal_re]
        · rw [Complex.ofReal_im, him]
      rw [hw', Complex.arg_ofReal_of_nonneg (le_of_lt hwre)]
  have hbeta : beta (q_to_xy d1 d2).x (q_to_xy d1 d2).y = -Complex.arg w := by
    show Complex.arg ⟨machine.l1 + machine.l2 * cos_q12 (q_to_xy d1 d2).x (q_to_xy d1 d2).y,
      machine.l2 * Real.sin (q12 (q_to_xy d1 d2).x (q_to_xy d1 d2).y)⟩ = -Complex.arg w
    have hbm : (⟨machine.l1 + machine.l2 * cos_q12 (q_to_xy d1 d2).x (q_to_xy d1 d2).y,
        machine.l2 * Real.sin (q12 (q_to_xy d1 d2).x (q_to_xy d1 d2).y)⟩ : ℂ)
        = (starRingEnd ℂ) w := by
      apply Complex.ext
      · show machine.l1 + machine.l2 * cos_q12 (q_to_xy d1 d2).x (q_to_xy d1 d2).y
          = ((starRingEnd ℂ) w).re
        rw [Complex.conj_re, hwre_val, machine_l1, machine_l2, hcq]
      · show machine.l2 * Real.sin (q12 (q_to_xy d1 d2).x (q_to_xy d1 d2).y)
          = ((starRingEnd ℂ) w).im
        rw [Complex.conj_im, hwim_val, machine_l2, hsinq12]
        ring
    rw [hbm, Complex.arg_conj]
    rw [if_neg]
    exact ne_of_lt (lt_of_le_of_lt hargw_le hpi)
  have hzw : (⟨(q_to_xy d1 d2).x, (q_to_xy d1 d2).y⟩ : ℂ)
      = Complex.exp (↑a * Complex.I) * w := by
    apply Complex.ext
    · show (q_to_xy d1 d2).x = (Complex.exp (↑a * Complex.I) * w).re
      rw [Complex.mul_re, Complex.exp_ofReal_mul_I_re, Complex.exp_ofReal_mul_I_im,
        hwre_val, hwim_val, hxval, hcosb a b]
      ring
    · show (q_to_xy d1 d2).y = (Complex.exp (↑a * Complex.I) * w).im
      rw [Complex.mul_im, Complex.exp_ofReal_mul_I_re, Complex.exp_ofReal_mul_I_im,
        hwre_val, hwim_val, hyval, hsinb a b]
      ring
  have hphi : atan2f (q_to_xy d1 d2).y (q_to_xy d1 d2).x = a + Complex.arg w := by
    show Complex.arg ⟨(q_to_xy d1 d2).x, (q_to_xy d1 d2).y⟩ = a + Complex.arg w
    rw [hzw]
    exact arg_exp_mul_eq a w hw0 (by linarith [hargw_bnd.1]) (by linarith)
  rw [xy_to_q_some hfar hc1 hc2, hphi, hbeta, hq12v]
  have hq1 : (a + Complex.arg w + -Complex.arg w) * DEGRAD = d1 := by
    rw [show a + Complex.arg w + -Complex.arg w = a by ring, hadef, mul_assoc,
      RADDEG_mul_DEGRAD, mul_one]
  have hq2 : (a + Complex.arg w + -Complex.arg w + -(a - b)) * DEGRAD = d2 := by
    rw [show a + Complex.arg w + -Complex.arg w + -(a - b) = b by ring, hbdef, mul_assoc,
      RADDEG_mul_DEGRAD, mul_one]
  rw [hq1, hq2]

/-! ### Evaluation and invariant lemmas for the transforms and the segmenter -/

lemma transform_to_cartesian_eval (angles : coord_data_t) :
    scara_transform_to_cartesian angles
      = ⟨(q_to_xy angles.x angles.y).x, (q_to_xy angles.x angles.y).y, angles.z⟩ := rfl

lemma transform_from_cartesian_none {tq pxy : coord_data_t}
    (h : xy_to_q pxy.x pxy.y = none) :
    scara_transform_from_cartesian tq pxy = (⟨tq.x, tq.y, pxy.z⟩, true) := by
  unfold scara_transform_from_cartesian
  rw [h]

lemma transform_from_cartesian_some {tq pxy : coord_data_t} {q : q_t}
    (h : xy_to_q pxy.x pxy.y = some q) :
    scara_transform_from_cartesian tq pxy = (⟨q.q1, q.q2, pxy.z⟩, false) := by
  unfold scara_transform_from_cartesian
  rw [h]

lemma seg_next_iterations (s : SegState) :
    (scara_segment_line_next s).1.iterations = s.iterations - 1 := rfl

lemma seg_next_cancel (s : SegState) :
    (scara_segment_line_next s).1.jog_cancel = s.jog_cancel := rfl

lemma segStepN_iterations (s : SegState) (k : ℕ) :
    (segStepN s k).iterations = s.iterations - k := by
  induction k with
  | zero => rfl
  | succ n ih =>
    show (scara_segment_line_next (segStepN s n)).1.iterations = s.iterations - (n + 1)
    rw [seg_next_iterations, ih, Nat.sub_sub]

lemma segStepN_cancel (s : SegState) (k : ℕ) :
    (segStepN s k).jog_cancel = s.jog_cancel := by
  induction k with
  | zero => rfl
  | succ n ih =>
    show (scara_segment_line_next (segStepN s n)).1.jog_cancel = s.jog_cancel
    rw [seg_next_cancel, ih]

lemma seg_next_out_none_iff (s : SegState) :
    (scara_segment_line_next s).2 = none ↔
      (s.iterations - 1 = 0 ∨ s.jog_cancel = true) := by
  show (if s.iterations - 1 = 0 ∨ s.jog_cancel = true then none
        else some (scara_transform_from_cartesian s.current_position _).1)
      = none ↔ _
  split_ifs with h
  · simp [h]
  · simp [h]

lemma segOut_none_iff (s : SegState) (k : ℕ) (hk : 1 ≤ k)
    (hc : s.jog_cancel = false) :
    (segOut s k = none ↔ s.iterations - k = 0) := by
  unfold segOut
  rw [seg_next_out_none_iff, segStepN_cancel, hc, segStepN_iterations]
  have h : s.iterations - (k - 1) - 1 = s.iterations - k := by omega
  rw [h]
  simp

lemma segOut_isSome (s : SegState) (k : ℕ) (hk : 1 ≤ k)
    (hc : s.jog_cancel = false) (hlt : k < s.iterations) :
    (segOut s k).isSome = true := by
  rw [Option.isSome_iff_ne_none]
  intro h
  rw [segOut_none_iff s k hk hc] at h
  omega

lemma seg_init_iterations (target position : coord_data_t) (rapid : Bool) :
    (scara_segment_line_init target position rapid).1.iterations
      = seg_iterations_init target position rapid + 1 := rfl

lemma seg_init_cancel (target position : coord_data_t) (rapid : Bool) :
    (scara_segment_line_init target position rapid).1.jog_cancel = false := rfl

lemma seg_init_do (target position : coord_data_t) (rapid : Bool) :
    (scara_segment_line_init target position rapid).1.do_segments
      = seg_do_segments target position rapid := rfl

lemma seg_init_final (target position : coord_data_t) (rapid : Bool) :
    (scara_segment_line_init target position rapid).1.final_target = target := rfl

lemma seg_init_segment_target (target position : coord_data_t) (rapid : Bool) :
    (scara_segment_line_init target position rapid).1.segment_target
      = seg_target_init target position rapid := rfl

lemma seg_init_current (target position : coord_data_t) (rapid : Bool) :
    (scara_segment_line_init target position rapid).1.current_position
      = (scara_transform_from_cartesian (seg_current_position position)
          (seg_target_init target position rapid)).1 := rfl

lemma seg_init_alarm (target position : coord_data_t) (rapid : Bool) :
    (scara_segment_line_init target position rapid).1.alarm
      = (scara_transform_from_cartesian (seg_current_position position)
          (seg_target_init target position rapid)).2 := rfl

lemma seg_init_out (target position : coord_data_t) (rapid : Bool) :
    (scara_segment_line_init target position rapid).2
      = some (scara_transform_from_cartesian (seg_current_position position)
          (seg_target_init target position rapid)).1 := by
  show (if seg_iterations_init target position rapid + 1 = 0 ∨ false = true then none
        else some _) = _
  rw [if_neg (by simp)]

lemma seg_do_segments_of_cond {target position : coord_data_t} {rapid : Bool}
    (h : rapid = false ∧ MAX_SEG_LENGTH_MM < seg_distance target position) :
    seg_do_segments target position rapid = true := by
  unfold seg_do_segments
  rw [if_pos h]

lemma seg_do_segments_of_not_cond {target position : coord_data_t} {rapid : Bool}
    (h : ¬(rapid = false ∧ MAX_SEG_LENGTH_MM < seg_distance target position)) :
    seg_do_segments target position rapid = false := by
  unfold seg_do_segments
  rw [if_neg h]

lemma seg_iterations_init_of_true {target position : coord_data_t} {rapid : Bool}
    (h : seg_do_segments target position rapid = true) :
    seg_iterations_init target position rapid
      = ⌈seg_distance target position / MAX_SEG_LENGTH_MM⌉₊ := by
  unfold seg_iterations_init
  rw [if_pos h]

lemma seg_iterations_init_of_false {target position : coord_data_t} {rapid : Bool}
    (h : seg_do_segments target position rapid = false) :
    seg_iterations_init target position rapid = 1 := by
  unfold seg_iterations_init
  rw [if_neg (by rw [h]; exact Bool.false_ne_true)]

lemma seg_target_init_of_false {target position : coord_data_t} {rapid : Bool}
    (h : seg_do_segments target position rapid = false) :
    seg_target_init target position rapid = target := by
  unfold seg_target_init
  rw [if_neg (by rw [h]; exact Bool.false_ne_true)]

lemma seg_target_init_of_true {target position : coord_data_t} {rapid : Bool}
    (h : seg_do_segments target position rapid = true) :
    seg_target_init target position rapid = seg_current_position position := by
  unfold seg_target_init
  rw [if_pos h]

/-! ### Angle bounds used by the counterexamples -/

/-- The elbow-up inverse solution at `(500, -450)` has `q1 < 180°`
(its `atan2` part is negative and `beta ≤ π`). -/
lemma xy_to_q_500_neg450_q1_lt : ∀ q : q_t, xy_to_q 500 (-450) = some q → q.q1 < 180 := by
  intro q h
  obtain ⟨hfar, hc1, hc2, hq⟩ := xy_to_q_some_elim h
  subst hq
  show (atan2f (-450) 500 + beta 500 (-450)) * DEGRAD < 180
  have hphi : atan2f (-450) 500 < 0 := by
    have him : ((⟨(500:ℝ), (-450:ℝ)⟩ : ℂ)).im < 0 := by norm_num
    exact Complex.arg_neg_iff.mpr him
  have hbeta_le : beta 500 (-450) ≤ Real.pi := Complex.arg_le_pi _
  have hsum : atan2f (-450) 500 + beta 500 (-450) < Real.pi := by linarith
  have hD := DEGRAD_pos
  calc (atan2f (-450) 500 + beta 500 (-450)) * DEGRAD
      < Real.pi * DEGRAD := mul_lt_mul_of_pos_right hsum hD
    _ = 180 := by
        unfold DEGRAD
        field_simp

/-- The elbow-up inverse solution at `(0, 90)` has `q2 < 90°`
(`atan2 = π/2`, `beta < π/2` and `q12 > π/2` there). -/
lemma xy_to_q_0_90_q2_lt : ∀ q : q_t, xy_to_q 0 90 = some q → q.q2 < 90 := by
  intro q h
  obtain ⟨hfar, hc1, hc2, hq⟩ := xy_to_q_some_elim h
  subst hq
  show (atan2f 90 0 + beta 0 90 + -q12 0 90) * DEGRAD < 90
  have hphi : atan2f 90 0 = Real.pi / 2 := arg_mk_zero_re (by norm_num)
  have hcneg : cos_q12 0 90 < 0 := by rw [cos_q12_eq]; norm_num
  have hq12gt : Real.pi / 2 < q12 0 90 := by
    unfold q12
    by_contra hcon
    push_neg at hcon
    exact absurd (Real.arccos_le_pi_div_two.mp hcon) (by linarith)
  have hbeta_lt : beta 0 90 < Real.pi / 2 := by
    have h1 : (0:ℝ) < ((⟨machine.l1 + machine.l2 * cos_q12 0 90,
        machine.l2 * Real.sin (q12 0 90)⟩ : ℂ)).re := by
      show (0:ℝ) < machine.l1 + machine.l2 * cos_q12 0 90
      rw [machine_l1, machine_l2, cos_q12_eq]
      norm_num
    have habs := Complex.abs_arg_lt_pi_div_two_iff.mpr (Or.inl h1)
    exact (abs_lt.mp habs).2
  have hsum : atan2f 90 0 + beta 0 90 + -q12 0 90 < Real.pi / 2 := by
    rw [hphi]
    linarith
  have hD := DEGRAD_pos
  calc (atan2f 90 0 + beta 0 90 + -q12 0 90) * DEGRAD
      < Real.pi / 2 * DEGRAD := mul_lt_mul_of_pos_right hsum hD
    _ = 90 := by
        unfold DEGRAD
        field_simp
        ring

lemma seg_next_segment_target_snap (s : SegState)
    (h : ¬(s.do_segments = true ∧ 1 < s.iterations - 1)) :
    (scara_segment_line_next s).1.segment_target = s.final_target := by
  simp only [scara_segment_line_next]
  rw [if_neg h]

lemma seg_next_out_snap (s : SegState)
    (h : ¬(s.do_segments = true ∧ 1 < s.iterations - 1)) :
    (scara_segment_line_next s).2
      = if s.iterations - 1 = 0 ∨ s.jog_cancel = true then none
        else some (scara_transform_from_cartesian s.current_position s.final_target).1 := by
  simp only [scara_segment_line_next]
  rw [if_neg h]

lemma seg_next_alarm_snap (s : SegState)
    (h : ¬(s.do_segments = true ∧ 1 < s.iterations - 1)) :
    (scara_segment_line_next s).1.alarm
      = (s.alarm || (scara_transform_from_cartesian s.current_position s.final_target).2) := by
  simp only [scara_segment_line_next]
  rw [if_neg h]

lemma seg_do_segments_elim {target position : coord_data_t} {rapid : Bool}
    (h : seg_do_segments target position rapid = true) :
    rapid = false ∧ MAX_SEG_LENGTH_MM < seg_distance target position := by
  unfold seg_do_segments at h
  split_ifs at h with hc
  exact hc

lemma seg_current_position_home :
    seg_current_position ⟨0, -90, 0⟩ = ⟨500, -450, 0⟩ := by
  unfold seg_current_position
  rw [transform_to_cartesian_eval]
  show (⟨(q_to_xy 0 (-90)).x, (q_to_xy 0 (-90)).y, 0⟩ : coord_data_t) = ⟨500, -450, 0⟩
  rw [q_to_xy_0_neg90]

/-! ### Claim theorems -/

/-- C10: when the cartesian-to-joint wrapper signals Unreachable (raises the
soft-limit alarm and returns NULL), it has already overwritten the
pass-through component (each axis above the two driven ones; here Z) of
the caller's output buffer with the corresponding input value, while the
two driven components keep their prior contents. -/
theorem c10_passthrough_written_on_unreachable (target_q position_xy : coord_data_t)
    (h : xy_to_q position_xy.x position_xy.y = none) :
    scara_transform_from_cartesian target_q position_xy
      = (⟨target_q.x, target_q.y, position_xy.z⟩, true) :=
  transform_from_cartesian_none h

/-- Witness for C10 at buffer `(7, 8, 9)` and unreachable input `(1000, 0, 5)`:
the buffer comes back as `(7, 8, 5)` with the alarm raised. -/
theorem c10_passthrough_witness :
    xy_to_q (1000 : ℝ) 0 = none ∧
    scara_transform_from_cartesian ⟨7, 8, 9⟩ ⟨1000, 0, 5⟩ = (⟨7, 8, 5⟩, true) :=
  ⟨xy_to_q_1000_0,
   c10_passthrough_written_on_unreachable ⟨7, 8, 9⟩ ⟨1000, 0, 5⟩ xy_to_q_1000_0⟩

/-- C2 (failing input): the origin `(0, 0)` is strictly inside the disc of
radius `l1 + l2`, yet the code's unclamped law-of-cosines ratio
`(0 - l1² - l2²)/(2·l1·l2) ≈ -1.0056 < -1` makes `acosf` yield NaN, so the
inverse transform signals Unreachable (NaN joints, soft-limit alarm)
contrary to the claim that no interior point does. -/
theorem c2_inner_point_signals_unreachable :
    (0:ℝ) * 0 + 0 * 0 < (machine.l1 + machine.l2) * (machine.l1 + machine.l2) ∧
    cos_q12 0 0 < -1 ∧
    xy_to_q 0 0 = none ∧
    (scara_transform_from_cartesian ⟨1, 2, 3⟩ ⟨0, 0, 0⟩).2 = true := by
  refine ⟨by norm_num, by rw [cos_q12_eq]; norm_num, xy_to_q_0_0, ?_⟩
  rw [transform_from_cartesian_none (xy_to_q_0_0)]

/-- C6: setting the cancel flag between two `next()` calls makes the very
next `next()` call return the termination signal even though
`remainingIterations > 0`, and every `init` call clears the flag. -/
theorem c6_cancellation (s : SegState) (target position : coord_data_t) (rapid : Bool)
    (hit : 0 < s.iterations) :
    (scara_segment_line_next (cancel_jog s)).2 = none ∧
    (scara_segment_line_init target position rapid).1.jog_cancel = false := by
  constructor
  · rw [seg_next_out_none_iff]
    right
    rfl
  · exact seg_init_cancel target position rapid

/-- Witness for C6 at a concrete mid-session state with 5 iterations left. -/
theorem c6_cancellation_witness :
    0 < (SegState.mk false 5 ⟨0, 0, 0⟩ ⟨0, 0, 0⟩ ⟨0, 0, 0⟩ ⟨0, 0, 0⟩ false false).iterations ∧
    (scara_segment_line_next (cancel_jog
      (SegState.mk false 5 ⟨0, 0, 0⟩ ⟨0, 0, 0⟩ ⟨0, 0, 0⟩ ⟨0, 0, 0⟩ false false))).2 = none ∧
    (scara_segment_line_init ⟨950, 0, 0⟩ ⟨0, -90, 0⟩ false).1.jog_cancel = false := by
  have h := c6_cancellation
    (SegState.mk false 5 ⟨0, 0, 0⟩ ⟨0, 0, 0⟩ ⟨0, 0, 0⟩ ⟨0, 0, 0⟩ false false)
    ⟨950, 0, 0⟩ ⟨0, -90, 0⟩ false (by norm_num)
  exact ⟨by norm_num, h.1, h.2⟩

/-- C5: on the call where `remainingIterations` is decremented to 1 the
segment target is set to the final target exactly, by copy; consequently,
whenever the inverse transform of the final target is defined, the
returned waypoint is exactly its joint solution, and forward-transforming
that waypoint reproduces the final cartesian target exactly — independent
of how many segments preceded. -/
theorem c5_last_segment_snaps_to_final (s : SegState) (h2 : s.iterations = 2)
    (hc : s.jog_cancel = false) :
    (scara_segment_line_next s).1.segment_target = s.final_target ∧
    (∀ q : q_t, xy_to_q s.final_target.x s.final_target.y = some q →
      (scara_segment_line_next s).2 = some ⟨q.q1, q.q2, s.final_target.z⟩ ∧
      q_to_xy q.q1 q.q2 = ⟨s.final_target.x, s.final_target.y⟩) := by
  have hcond : ¬(s.do_segments = true ∧ 1 < s.iterations - 1) := by
    rw [h2]
    rintro ⟨-, hh⟩
    norm_num at hh
  refine ⟨seg_next_segment_target_snap s hcond, ?_⟩
  intro q hq
  constructor
  · rw [seg_next_out_snap s hcond, if_neg (by rw [h2, hc]; simp),
      transform_from_cartesian_some hq]
  · exact q_to_xy_xy_to_q hq

/-- Witness for C5 at a concrete state about to take its last real segment
toward the reachable final target `(950, 0, 3)`. -/
theorem c5_last_segment_witness :
    (SegState.mk true 2 ⟨1, 1, 0⟩ ⟨940, 0, 3⟩ ⟨10, 10, 3⟩ ⟨950, 0, 3⟩ false false).iterations = 2 ∧
    (scara_segment_line_next
       (SegState.mk true 2 ⟨1, 1, 0⟩ ⟨940, 0, 3⟩ ⟨10, 10, 3⟩ ⟨950, 0, 3⟩ false false)).1.segment_target
      = (⟨950, 0, 3⟩ : coord_data_t) ∧
    (scara_segment_line_next
       (SegState.mk true 2 ⟨1, 1, 0⟩ ⟨940, 0, 3⟩ ⟨10, 10, 3⟩ ⟨950, 0, 3⟩ false false)).2
      = some ⟨0, 0, 3⟩ ∧
    q_to_xy 0 0 = ⟨950, 0⟩ := by
  have h := c5_last_segment_snaps_to_final
    (SegState.mk true 2 ⟨1, 1, 0⟩ ⟨940, 0, 3⟩ ⟨10, 10, 3⟩ ⟨950, 0, 3⟩ false false) rfl rfl
  have h2 := h.2 ⟨0, 0⟩ xy_to_q_950_0
  exact ⟨rfl, h.1, h2.1, h2.2⟩

lemma seg_init_1000_do :
    seg_do_segments ⟨1000, 0, 0⟩ ⟨0, -90, 0⟩ true = false :=
  seg_do_segments_of_not_cond (by simp)

lemma seg_init_1000_target :
    seg_target_init ⟨1000, 0, 0⟩ ⟨0, -90, 0⟩ true = ⟨1000, 0, 0⟩ :=
  seg_target_init_of_false seg_init_1000_do

lemma seg_init_1000_tf :
    scara_transform_from_cartesian (seg_current_position ⟨0, -90, 0⟩)
      (seg_target_init ⟨1000, 0, 0⟩ ⟨0, -90, 0⟩ true) = (⟨500, -450, 0⟩, true) := by
  rw [seg_current_position_home, seg_init_1000_target]
  exact transform_from_cartesian_none xy_to_q_1000_0

lemma seg_init_1000_out :
    (scara_segment_line_init ⟨1000, 0, 0⟩ ⟨0, -90, 0⟩ true).2 = some ⟨500, -450, 0⟩ := by
  rw [seg_init_out, seg_init_1000_tf]

lemma seg_init_1000_iterations :
    (scara_segment_line_init ⟨1000, 0, 0⟩ ⟨0, -90, 0⟩ true).1.iterations = 2 := by
  rw [seg_init_iterations, seg_iterations_init_of_false seg_init_1000_do]

/-- C1 (failing run): a rapid session toward the unreachable target
`(1000, 0, 0)` from the pose `(0°, -90°)`.  On the first `next()` call the
segment target is the unreachable final target, so the inverse transform
raises the soft-limit alarm and returns NULL — but `scara_segment_line`
ignores that NULL: since the decremented `iterations` is 1 (> 0) and no
cancel is pending, the call returns the stale waypoint buffer
`(500, -450, 0)` instead of the termination signal the spec requires. -/
theorem c1_unreachable_segment_not_terminated :
    xy_to_q (1000 : ℝ) 0 = none ∧
    (scara_segment_line_next
       (scara_segment_line_init ⟨1000, 0, 0⟩ ⟨0, -90, 0⟩ true).1).1.segment_target
      = ⟨1000, 0, 0⟩ ∧
    (scara_segment_line_next
       (scara_segment_line_init ⟨1000, 0, 0⟩ ⟨0, -90, 0⟩ true).1).1.alarm = true ∧
    (scara_segment_line_next
       (scara_segment_line_init ⟨1000, 0, 0⟩ ⟨0, -90, 0⟩ true).1).1.iterations = 1 ∧
    (scara_segment_line_next
       (scara_segment_line_init ⟨1000, 0, 0⟩ ⟨0, -90, 0⟩ true).1).2
      = some ⟨500, -450, 0⟩ := by
  have hdo : (scara_segment_line_init ⟨1000, 0, 0⟩ ⟨0, -90, 0⟩ true).1.do_segments = false := by
    rw [seg_init_do]
    exact seg_init_1000_do
  have hit := seg_init_1000_iterations
  have hcan := seg_init_cancel ⟨1000, 0, 0⟩ ⟨0, -90, 0⟩ true
  have hcur : (scara_segment_line_init ⟨1000, 0, 0⟩ ⟨0, -90, 0⟩ true).1.current_position
      = ⟨500, -450, 0⟩ := by
    rw [seg_init_current, seg_init_1000_tf]
  have halarm : (scara_segment_line_init ⟨1000, 0, 0⟩ ⟨0, -90, 0⟩ true).1.alarm = true := by
    rw [seg_init_alarm, seg_init_1000_tf]
  have hfin := seg_init_final ⟨1000, 0, 0⟩ ⟨0, -90, 0⟩ true
  have hcond : ¬((scara_segment_line_init ⟨1000, 0, 0⟩ ⟨0, -90, 0⟩ true).1.do_segments = true ∧
      1 < (scara_segment_line_init ⟨1000, 0, 0⟩ ⟨0, -90, 0⟩ true).1.iterations - 1) := by
    rintro ⟨hh, -⟩
    rw [hdo] at hh
    exact Bool.false_ne_true hh
  refine ⟨xy_to_q_1000_0, ?_, ?_, ?_, ?_⟩
  · rw [seg_next_segment_target_snap _ hcond, hfin]
  · rw [seg_next_alarm_snap _ hcond, halarm, Bool.true_or]
  · rw [seg_next_iterations, hit]
  · rw [seg_next_out_snap _ hcond, hit, hcan, if_neg (by simp), hcur, hfin,
      transform_from_cartesian_none xy_to_q_1000_0]

/-- C9 (counterexample): with segmentation disabled (rapid move), the
`init` call's segment target is the final target `(1000, 0, 0)`, whose
inverse transform does not exist (`none`); the call nevertheless returns
the buffer `(500, -450, 0)` — the cartesian current position left over in
the output buffer, not any inverse-transform result — so the claim that
the returned waypoint *is* the inverse transform of the final target is
false. -/
theorem c9_counterexample :
    xy_to_q (1000 : ℝ) 0 = none ∧
    (scara_segment_line_init ⟨1000, 0, 0⟩ ⟨0, -90, 0⟩ true).1.do_segments = false ∧
    (scara_segment_line_init ⟨1000, 0, 0⟩ ⟨0, -90, 0⟩ true).1.segment_target = ⟨1000, 0, 0⟩ ∧
    (scara_segment_line_init ⟨1000, 0, 0⟩ ⟨0, -90, 0⟩ true).2 = some ⟨500, -450, 0⟩ := by
  refine ⟨xy_to_q_1000_0, ?_, ?_, seg_init_1000_out⟩
  · rw [seg_init_do]
    exact seg_init_1000_do
  · rw [seg_init_segment_target]
    exact seg_init_1000_target

/-- C9 (amended): every `init = true` call returns a waypoint buffer (never
the termination signal), since the stored iteration count is at least 2 and
the cancel flag has just been cleared; and whenever the inverse transform
of the selected segment target (the current cartesian position when
segmenting, the final target otherwise) is defined, the returned waypoint
is exactly that inverse transform. -/
theorem c9_init_returns_waypoint (target position : coord_data_t) (rapid : Bool) :
    (∃ v, (scara_segment_line_init target position rapid).2 = some v) ∧
    2 ≤ (scara_segment_line_init target position rapid).1.iterations ∧
    (scara_segment_line_init target position rapid).1.jog_cancel = false ∧
    (∀ q : q_t,
      xy_to_q (seg_target_init target position rapid).x
        (seg_target_init target position rapid).y = some q →
      (scara_segment_line_init target position rapid).2
        = some ⟨q.q1, q.q2, (seg_target_init target position rapid).z⟩) := by
  refine ⟨⟨_, seg_init_out target position rapid⟩, ?_,
    seg_init_cancel target position rapid, ?_⟩
  · rw [seg_init_iterations]
    have h1 : 1 ≤ seg_iterations_init target position rapid := by
      unfold seg_iterations_init
      split_ifs with h
      · have hd := (seg_do_segments_elim h).2
        rw [Nat.one_le_ceil_iff]
        unfold MAX_SEG_LENGTH_MM at hd ⊢
        linarith
      · exact le_refl 1
    omega
  · intro q hq
    rw [seg_init_out, transform_from_cartesian_some hq]

/-- Witness for C9: a rapid `init` toward the reachable full-extension
point `(950, 0, 0)` yields the waypoint `(0°, 0°, 0)`. -/
theorem c9_init_witness :
    (∃ v, (scara_segment_line_init ⟨950, 0, 0⟩ ⟨0, -90, 0⟩ true).2 = some v) ∧
    2 ≤ (scara_segment_line_init ⟨950, 0, 0⟩ ⟨0, -90, 0⟩ true).1.iterations ∧
    (scara_segment_line_init ⟨950, 0, 0⟩ ⟨0, -90, 0⟩ true).2 = some ⟨0, 0, 0⟩ := by
  obtain ⟨hex, hit, -, himp⟩ := c9_init_returns_waypoint ⟨950, 0, 0⟩ ⟨0, -90, 0⟩ true
  have htgt : seg_target_init ⟨950, 0, 0⟩ ⟨0, -90, 0⟩ true = ⟨950, 0, 0⟩ :=
    seg_target_init_of_false (seg_do_segments_of_not_cond (by simp))
  have hq : xy_to_q (seg_target_init ⟨950, 0, 0⟩ ⟨0, -90, 0⟩ true).x
      (seg_target_init ⟨950, 0, 0⟩ ⟨0, -90, 0⟩ true).y = some ⟨0, 0⟩ := by
    rw [htgt]
    exact xy_to_q_950_0
  have hout := himp ⟨0, 0⟩ hq
  rw [htgt] at hout
  exact ⟨hex, hit, hout⟩

/-- C3 (counterexample): the round-trip claim quantifies over *every*
joint pair whose forward image is within reach, but `(360°, -90°)` maps to
the same cartesian point `(500, -450)` as `(0°, -90°)`, and the inverse
transform returns an angle `q1 < 180°`, hence at distance `> 180°` from
`360°` — far outside the claimed `10⁻³` degree tolerance. -/
theorem c3_roundtrip_counterexample :
    (q_to_xy 360 (-90)).x * (q_to_xy 360 (-90)).x +
        (q_to_xy 360 (-90)).y * (q_to_xy 360 (-90)).y
      ≤ (machine.l1 + machine.l2) * (machine.l1 + machine.l2) ∧
    ¬ ∃ q : q_t, xy_to_q (q_to_xy 360 (-90)).x (q_to_xy 360 (-90)).y = some q ∧
        |q.q1 - 360| ≤ 1 / 1000 ∧ |q.q2 - (-90)| ≤ 1 / 1000 := by
  rw [q_to_xy_360_neg90]
  constructor
  · show (500:ℝ) * 500 + (-450) * (-450)
      ≤ (machine.l1 + machine.l2) * (machine.l1 + machine.l2)
    norm_num
  · show ¬ ∃ q : q_t, xy_to_q 500 (-450) = some q ∧
        |q.q1 - 360| ≤ 1 / 1000 ∧ |q.q2 - (-90)| ≤ 1 / 1000
    rintro ⟨q, hq, h1, -⟩
    have hlt := xy_to_q_500_neg450_q1_lt q hq
    have habs := abs_le.mp h1
    linarith [habs.1]

/-- C3 (amended): restricted to the configured elbow-up, absolute-`q2`
branch — `q1 ∈ (-90°, 180°]` and relative angle `q2 - q1 ∈ [-180°, 0°]` —
the inverse transform reproduces the joint pair from its forward image
exactly (in particular within any positive tolerance such as `10⁻³`
degrees). -/
theorem c3_roundtrip_elbow_up (d1 d2 : ℝ) (h1 : -90 < d1) (h2 : d1 ≤ 180)
    (h3 : -180 ≤ d2 - d1) (h4 : d2 - d1 ≤ 0) :
    xy_to_q (q_to_xy d1 d2).x (q_to_xy d1 d2).y = some ⟨d1, d2⟩ :=
  xy_to_q_q_to_xy d1 d2 h1 h2 h3 h4

/-- Witness for C3 at the power-up pose `(0°, -90°)`. -/
theorem c3_roundtrip_elbow_up_witness :
    (-90 < (0:ℝ) ∧ (0:ℝ) ≤ 180 ∧ -180 ≤ (-90:ℝ) - 0 ∧ (-90:ℝ) - 0 ≤ 0) ∧
    xy_to_q (q_to_xy 0 (-90)).x (q_to_xy 0 (-90)).y = some ⟨0, -90⟩ :=
  ⟨by norm_num,
   c3_roundtrip_elbow_up 0 (-90) (by norm_num) (by norm_num) (by norm_num) (by norm_num)⟩

/-- C7 (counterexample): `(30, 0)` satisfies the claim's hypothesis
`x² + y² ≤ (l1+l2)²`, yet the inverse transform returns no joint angles at
all there (NaN from the unclamped `acosf`), rather than the claimed
formula values. -/
theorem c7_formula_counterexample :
    (30:ℝ) * 30 + 0 * 0 ≤ (machine.l1 + machine.l2) * (machine.l1 + machine.l2) ∧
    xy_to_q 30 0 = none :=
  ⟨by norm_num, xy_to_q_30_0⟩

/-- C7 (amended): on the annulus `(l1-l2)² ≤ x² + y² ≤ (l1+l2)²` the
inverse transform returns exactly the spec's elbow-up, absolute-`q2`
formulas: `q12 = acos((x²+y² - l1² - l2²)/(2 l1 l2))`,
`β = atan2(l2 sin q12, l1 + l2 cos q12)`, `q1 = atan2(y,x) + β`, and
`q2 = q1 + (-q12)`, all converted to degrees. -/
theorem c7_inverse_formulas (x y : ℝ)
    (hlo : (machine.l1 - machine.l2) * (machine.l1 - machine.l2) ≤ x * x + y * y)
    (hhi : x * x + y * y ≤ (machine.l1 + machine.l2) * (machine.l1 + machine.l2)) :
    xy_to_q x y =
      some ⟨(atan2f y x +
              atan2f (machine.l2 * Real.sin (Real.arccos
                  ((x * x + y * y - machine.l1 * machine.l1 - machine.l2 * machine.l2) /
                    (2 * machine.l1 * machine.l2))))
                (machine.l1 + machine.l2 * Real.cos (Real.arccos
                  ((x * x + y * y - machine.l1 * machine.l1 - machine.l2 * machine.l2) /
                    (2 * machine.l1 * machine.l2))))) * DEGRAD,
            (atan2f y x +
              atan2f (machine.l2 * Real.sin (Real.arccos
                  ((x * x + y * y - machine.l1 * machine.l1 - machine.l2 * machine.l2) /
                    (2 * machine.l1 * machine.l2))))
                (machine.l1 + machine.l2 * Real.cos (Real.arccos
                  ((x * x + y * y - machine.l1 * machine.l1 - machine.l2 * machine.l2) /
                    (2 * machine.l1 * machine.l2)))) +
              -Real.arccos
                  ((x * x + y * y - machine.l1 * machine.l1 - machine.l2 * machine.l2) /
                    (2 * machine.l1 * machine.l2))) * DEGRAD⟩ := by
  have hlo' : (2500:ℝ) ≤ x * x + y * y := by
    rw [machine_l1, machine_l2] at hlo
    linarith [hlo]
  have hhi' : x * x + y * y ≤ 902500 := by
    rw [machine_l1, machine_l2] at hhi
    linarith [hhi]
  have hc1 : -1 ≤ cos_q12 x y := by
    rw [cos_q12_eq, le_div_iff (by norm_num : (0:ℝ) < 450000)]
    linarith
  have hc2 : cos_q12 x y ≤ 1 := by
    rw [cos_q12_eq, div_le_iff (by norm_num : (0:ℝ) < 450000)]
    linarith
  have hfar : ¬ (machine.l1 + machine.l2) * (machine.l1 + machine.l2) < x * x + y * y := by
    rw [machine_l1, machine_l2]
    push_neg
    linarith
  rw [xy_to_q_some hfar hc1 hc2]
  have hB : beta x y
      = atan2f (machine.l2 * Real.sin (Real.arccos
            ((x * x + y * y - machine.l1 * machine.l1 - machine.l2 * machine.l2) /
              (2 * machine.l1 * machine.l2))))
          (machine.l1 + machine.l2 * Real.cos (Real.arccos
            ((x * x + y * y - machine.l1 * machine.l1 - machine.l2 * machine.l2) /
              (2 * machine.l1 * machine.l2)))) := by
    unfold cos_q12 at hc1 hc2
    unfold beta q12 cos_q12
    rw [Real.cos_arccos hc1 hc2]
  have hQ : q12 x y = Real.arccos
      ((x * x + y * y - machine.l1 * machine.l1 - machine.l2 * machine.l2) /
        (2 * machine.l1 * machine.l2)) := rfl
  rw [hB, hQ]

/-- Witness for C7 at the full-extension point `(950, 0)`. -/
theorem c7_inverse_formulas_witness :
    ((machine.l1 - machine.l2) * (machine.l1 - machine.l2) ≤ (950:ℝ) * 950 + 0 * 0 ∧
     (950:ℝ) * 950 + 0 * 0 ≤ (machine.l1 + machine.l2) * (machine.l1 + machine.l2)) ∧
    xy_to_q 950 0 =
      some ⟨(atan2f 0 950 +
              atan2f (machine.l2 * Real.sin (Real.arccos
                  ((950 * 950 + 0 * 0 - machine.l1 * machine.l1 - machine.l2 * machine.l2) /
                    (2 * machine.l1 * machine.l2))))
                (machine.l1 + machine.l2 * Real.cos (Real.arccos
                  ((950 * 950 + 0 * 0 - machine.l1 * machine.l1 - machine.l2 * machine.l2) /
                    (2 * machine.l1 * machine.l2))))) * DEGRAD,
            (atan2f 0 950 +
              atan2f (machine.l2 * Real.sin (Real.arccos
                  ((950 * 950 + 0 * 0 - machine.l1 * machine.l1 - machine.l2 * machine.l2) /
                    (2 * machine.l1 * machine.l2))))
                (machine.l1 + machine.l2 * Real.cos (Real.arccos
                  ((950 * 950 + 0 * 0 - machine.l1 * machine.l1 - machine.l2 * machine.l2) /
                    (2 * machine.l1 * machine.l2)))) +
              -Real.arccos
                  ((950 * 950 + 0 * 0 - machine.l1 * machine.l1 - machine.l2 * machine.l2) /
                    (2 * machine.l1 * machine.l2))) * DEGRAD⟩ :=
  ⟨⟨by norm_num, by norm_num⟩, c7_inverse_formulas 950 0 (by norm_num) (by norm_num)⟩

lemma seg_distance_590 : seg_distance ⟨590, -330, 0⟩ ⟨0, -90, 0⟩ = 150 := by
  unfold seg_distance seg_delta_total
  rw [seg_current_position_home]
  show Real.sqrt (((590:ℝ) - 500) * ((590:ℝ) - 500) +
    ((-330:ℝ) - -450) * ((-330:ℝ) - -450)) = 150
  rw [show ((590:ℝ) - 500) * ((590:ℝ) - 500) +
      ((-330:ℝ) - -450) * ((-330:ℝ) - -450) = 150 ^ 2 by norm_num]
  exact Real.sqrt_sq (by norm_num)

lemma seg_distance_1003 : seg_distance ⟨1003 / 2, -450, 0⟩ ⟨0, -90, 0⟩ = 3 / 2 := by
  unfold seg_distance seg_delta_total
  rw [seg_current_position_home]
  show Real.sqrt (((1003 / 2 : ℝ) - 500) * ((1003 / 2 : ℝ) - 500) +
    ((-450:ℝ) - -450) * ((-450:ℝ) - -450)) = 3 / 2
  rw [show ((1003 / 2 : ℝ) - 500) * ((1003 / 2 : ℝ) - 500) +
      ((-450:ℝ) - -450) * ((-450:ℝ) - -450) = (3 / 2) ^ 2 by norm_num]
  exact Real.sqrt_sq (by norm_num)

/-- C4: segment counting.  A non-rapid move of planar distance exactly 150
(geometry `l1 = 500`, `l2 = 450`) stores `remainingIterations =
ceil(150/2) + 1 = 76`, so the first 75 `next()` calls return waypoints and
the 76th returns the termination signal; a move of distance 1.5 yields
exactly 1 real segment (2 stored iterations) regardless of the rapid flag;
and any rapid-classified move yields exactly 1 real segment regardless of
distance. -/
theorem c4_segment_counts (target position : coord_data_t) (rapid : Bool) :
    (seg_distance target position = 150 → rapid = false →
      (scara_segment_line_init target position rapid).1.iterations = 76 ∧
      (∀ k : ℕ, 1 ≤ k → k ≤ 75 →
        (segOut (scara_segment_line_init target position rapid).1 k).isSome = true) ∧
      segOut (scara_segment_line_init target position rapid).1 76 = none) ∧
    (seg_distance target position = 3 / 2 →
      (scara_segment_line_init target position rapid).1.iterations = 2 ∧
      (segOut (scara_segment_line_init target position rapid).1 1).isSome = true ∧
      segOut (scara_segment_line_init target position rapid).1 2 = none) ∧
    (rapid = true →
      (scara_segment_line_init target position rapid).1.iterations = 2 ∧
      (segOut (scara_segment_line_init target position rapid).1 1).isSome = true ∧
      segOut (scara_segment_line_init target position rapid).1 2 = none) := by
  refine ⟨?_, ?_, ?_⟩
  · intro hdist hrapid
    have hds : seg_do_segments target position rapid = true := by
      apply seg_do_segments_of_cond
      refine ⟨hrapid, ?_⟩
      rw [hdist]
      unfold MAX_SEG_LENGTH_MM
      norm_num
    have hit : (scara_segment_line_init target position rapid).1.iterations = 76 := by
      rw [seg_init_iterations, seg_iterations_init_of_true hds, hdist]
      unfold MAX_SEG_LENGTH_MM
      rw [show (150:ℝ) / 2 = 75 by norm_num,
        show (75:ℝ) = ((75:ℕ) : ℝ) by norm_num, Nat.ceil_natCast]
    have hcan := seg_init_cancel target position rapid
    refine ⟨hit, ?_, ?_⟩
    · intro k hk1 hk75
      exact segOut_isSome _ k hk1 hcan (by rw [hit]; omega)
    · rw [segOut_none_iff _ 76 (by norm_num) hcan, hit]
  · intro hdist
    have hds : seg_do_segments target position rapid = false := by
      apply seg_do_segments_of_not_cond
      rintro ⟨-, hh⟩
      rw [hdist] at hh
      unfold MAX_SEG_LENGTH_MM at hh
      norm_num at hh
    have hit : (scara_segment_line_init target position rapid).1.iterations = 2 := by
      rw [seg_init_iterations, seg_iterations_init_of_false hds]
    have hcan := seg_init_cancel target position rapid
    refine ⟨hit, segOut_isSome _ 1 (le_refl 1) hcan (by rw [hit]; omega), ?_⟩
    rw [segOut_none_iff _ 2 (by norm_num) hcan, hit]
  · intro hrapid
    have hds : seg_do_segments target position rapid = false := by
      apply seg_do_segments_of_not_cond
      rintro ⟨hh, -⟩
      rw [hrapid] at hh
      simp at hh
    have hit : (scara_segment_line_init target position rapid).1.iterations = 2 := by
      rw [seg_init_iterations, seg_iterations_init_of_false hds]
    have hcan := seg_init_cancel target position rapid
    refine ⟨hit, segOut_isSome _ 1 (le_refl 1) hcan (by rw [hit]; omega), ?_⟩
    rw [segOut_none_iff _ 2 (by norm_num) hcan, hit]

/-- Witness for C4: the three scenarios at concrete moves from the pose
`(0°, -90°)` (cartesian `(500, -450)`): a 150 mm non-rapid move to
`(590, -330)`, a 1.5 mm non-rapid move to `(501.5, -450)`, and a rapid
move to `(950, 0)`. -/
theorem c4_segment_counts_witness :
    (seg_distance ⟨590, -330, 0⟩ ⟨0, -90, 0⟩ = 150 ∧
      (scara_segment_line_init ⟨590, -330, 0⟩ ⟨0, -90, 0⟩ false).1.iterations = 76 ∧
      (segOut (scara_segment_line_init ⟨590, -330, 0⟩ ⟨0, -90, 0⟩ false).1 75).isSome = true ∧
      segOut (scara_segment_line_init ⟨590, -330, 0⟩ ⟨0, -90, 0⟩ false).1 76 = none) ∧
    (seg_distance ⟨1003 / 2, -450, 0⟩ ⟨0, -90, 0⟩ = 3 / 2 ∧
      (scara_segment_line_init ⟨1003 / 2, -450, 0⟩ ⟨0, -90, 0⟩ false).1.iterations = 2 ∧
      segOut (scara_segment_line_init ⟨1003 / 2, -450, 0⟩ ⟨0, -90, 0⟩ false).1 2 = none) ∧
    ((scara_segment_line_init ⟨950, 0, 0⟩ ⟨0, -90, 0⟩ true).1.iterations = 2 ∧
      segOut (scara_segment_line_init ⟨950, 0, 0⟩ ⟨0, -90, 0⟩ true).1 2 = none) := by
  obtain ⟨p1, -, -⟩ := c4_segment_counts ⟨590, -330, 0⟩ ⟨0, -90, 0⟩ false
  obtain ⟨-, p2, -⟩ := c4_segment_counts ⟨1003 / 2, -450, 0⟩ ⟨0, -90, 0⟩ false
  obtain ⟨-, -, p3⟩ := c4_segment_counts ⟨950, 0, 0⟩ ⟨0, -90, 0⟩ true
  have h1 := p1 seg_distance_590 rfl
  have h2 := p2 seg_distance_1003
  have h3 := p3 rfl
  exact ⟨⟨seg_distance_590, h1.1, h1.2.1 75 (by norm_num) (by norm_num), h1.2.2⟩,
    ⟨seg_distance_1003, h2.1, h2.2.2⟩, ⟨h3.1, h3.2.2⟩⟩

lemma truncf_lt_of_lt {r : ℝ} {n : ℤ} (hn : 0 < n) (h : r < (n : ℝ)) :
    truncf r < n := by
  unfold truncf
  split_ifs with h0
  · exact Int.floor_lt.mpr h
  · push_neg at h0
    have hc : (⌈r⌉ : ℤ) ≤ 0 := by
      rw [show (0:ℤ) = ((0:ℤ)) from rfl]
      exact Int.ceil_le.mpr (by exact_mod_cast le_of_lt h0)
    omega

lemma truncf_90 : truncf ((90:ℝ) * 1) = 90 := by
  rw [mul_one]
  unfold truncf
  rw [if_pos (by norm_num : (0:ℝ) ≤ 90)]
  rw [show ((90:ℝ)) = ((90:ℤ) : ℝ) by norm_num, Int.floor_intCast]

/-- C8 (counterexample): `setTargetPosition` is not idempotent on a driven
axis.  With steps-per-mm 1 and step state `(0, 950, 0)` — the cartesian
point `(0, 950)` — the Y call writes `q2 = 90` into `position[Y]`; a
second call then reinterprets `(0, 90)` as the cartesian input, whose
elbow-up solution has `q2 < 90°`, so it overwrites `position[Y]` with a
different value. -/
theorem c8_set_target_pos_not_idempotent :
    ¬ ((scara_limits_set_target_pos ⟨fun _ => ⟨1, 0⟩, ⟨false, 0, 0⟩⟩ 1 ⟨![0, 950, 0]⟩).bind
         (scara_limits_set_target_pos ⟨fun _ => ⟨1, 0⟩, ⟨false, 0, 0⟩⟩ 1)
       = scara_limits_set_target_pos ⟨fun _ => ⟨1, 0⟩, ⟨false, 0, 0⟩⟩ 1 ⟨![0, 950, 0]⟩) := by
  intro heq
  have hfirst : scara_limits_set_target_pos ⟨fun _ => ⟨1, 0⟩, ⟨false, 0, 0⟩⟩ 1 ⟨![0, 950, 0]⟩
      = some ⟨Function.update (![0, 950, 0]) 1 90⟩ := by
    simp only [scara_limits_set_target_pos]
    rw [if_neg (by decide : ¬(1 : Fin 3) = 0), if_pos trivial]
    simp only [Matrix.cons_val_zero, Matrix.cons_val_one, Matrix.head_cons,
      Int.cast_zero, Int.cast_ofNat, zero_div, div_one]
    rw [xy_to_q_0_950]
    simp only [Option.map_some']
    rw [truncf_90]
  have hupd0 : (Function.update (![0, 950, 0] : Fin 3 → ℤ) 1 90) 0 = 0 := by
    rw [Function.update_noteq (by decide)]
    simp [Matrix.cons_val_zero]
  have hupd1 : (Function.update (![0, 950, 0] : Fin 3 → ℤ) 1 90) 1 = 90 :=
    Function.update_same 1 90 _
  have hc1 : -1 ≤ cos_q12 0 90 := by rw [cos_q12_eq]; norm_num
  have hc2 : cos_q12 0 90 ≤ 1 := by rw [cos_q12_eq]; norm_num
  have hfar : ¬ (machine.l1 + machine.l2) * (machine.l1 + machine.l2)
      < (0:ℝ) * 0 + 90 * 90 := by norm_num
  obtain ⟨q, hsome, hq2lt⟩ : ∃ q : q_t, xy_to_q 0 90 = some q ∧ q.q2 < 90 := by
    have hs := @xy_to_q_some 0 90 hfar hc1 hc2
    exact ⟨_, hs, xy_to_q_0_90_q2_lt _ hs⟩
  have hsecond : scara_limits_set_target_pos ⟨fun _ => ⟨1, 0⟩, ⟨false, 0, 0⟩⟩ 1
        ⟨Function.update (![0, 950, 0]) 1 90⟩
      = some ⟨Function.update (Function.update (![0, 950, 0]) 1 90) 1
          (truncf (q.q2 * 1))⟩ := by
    simp only [scara_limits_set_target_pos]
    rw [if_neg (by decide : ¬(1 : Fin 3) = 0), if_pos trivial]
    simp only [hupd0, hupd1, Int.cast_zero, Int.cast_ofNat, zero_div, div_one]
    rw [hsome]
    simp only [Option.map_some']
  rw [hfirst] at heq
  have heq2 : scara_limits_set_target_pos ⟨fun _ => ⟨1, 0⟩, ⟨false, 0, 0⟩⟩ 1
      ⟨Function.update (![0, 950, 0]) 1 90⟩ = some ⟨Function.update (![0, 950, 0]) 1 90⟩ := heq
  rw [hsecond] at heq2
  have hAB := Option.some_inj.mp heq2
  have hval := congrArg (fun s : limits_state_t => s.position 1) hAB
  simp only [Function.update_same] at hval
  have hlt : truncf (q.q2 * 1) < 90 := by
    rw [mul_one]
    exact truncf_lt_of_lt (by norm_num) (by exact_mod_cast hq2lt)
  omega

/-- C8 (amended): `setTargetPosition` is idempotent for a pass-through axis
(index 2, above the driven pair): it writes a constant 0 that does not feed
back into what it reads.  `setMachinePositions` with a cycle mask whose
top-axis bit is clear performs no writes at all (the entry guard tests only
that bit), so it too is idempotent there.  For the driven axes neither
operation is idempotent in general (see the counterexample). -/
theorem c8_limits_idempotent_passthrough (st : settings_t) (sys : limits_state_t)
    (cycle_mask : ℕ) (hmask : cycle_mask &&& 2 ^ 2 = 0) :
    ((scara_limits_set_target_pos st 2 sys).bind (scara_limits_set_target_pos st 2)
       = scara_limits_set_target_pos st 2 sys) ∧
    ((scara_limits_set_machine_positions st cycle_mask sys).bind
        (scara_limits_set_machine_positions st cycle_mask)
       = scara_limits_set_machine_positions st cycle_mask sys) := by
  constructor
  · have h2 : ∀ s : limits_state_t, scara_limits_set_target_pos st 2 s
        = some ⟨Function.update s.position 2 0⟩ := by
      intro s
      simp only [scara_limits_set_target_pos]
      rw [if_neg (by decide : ¬(2 : Fin 3) = 0), if_neg (by decide : ¬(2 : Fin 3) = 1)]
    rw [h2 sys]
    show scara_limits_set_target_pos st 2 ⟨Function.update sys.position 2 0⟩
      = some ⟨Function.update sys.position 2 0⟩
    rw [h2 _]
    show some (⟨Function.update (Function.update sys.position 2 0) 2 0⟩ : limits_state_t)
      = some ⟨Function.update sys.position 2 0⟩
    rw [Function.update_idem]
  · have hm : ∀ s : limits_state_t,
        scara_limits_set_machine_positions st cycle_mask s = some s := by
      intro s
      simp only [scara_limits_set_machine_positions]
      rw [if_neg (fun hne => hne hmask)]
    rw [hm sys]
    show scara_limits_set_machine_positions st cycle_mask sys = some sys
    exact hm sys

/-- Witness for C8 (amended) with unit steps-per-mm, step state `(3, 4, 5)`
and an empty homing cycle mask. -/
theorem c8_limits_idempotent_witness :
    ((0:ℕ) &&& 2 ^ 2 = 0) ∧
    ((scara_limits_set_target_pos ⟨fun _ => ⟨1, 0⟩, ⟨false, 0, 0⟩⟩ 2 ⟨![3, 4, 5]⟩).bind
        (scara_limits_set_target_pos ⟨fun _ => ⟨1, 0⟩, ⟨false, 0, 0⟩⟩ 2)
      = scara_limits_set_target_pos ⟨fun _ => ⟨1, 0⟩, ⟨false, 0, 0⟩⟩ 2 ⟨![3, 4, 5]⟩) ∧
    ((scara_limits_set_machine_positions ⟨fun _ => ⟨1, 0⟩, ⟨false, 0, 0⟩⟩ 0 ⟨![3, 4, 5]⟩).bind
        (scara_limits_set_machine_positions ⟨fun _ => ⟨1, 0⟩, ⟨false, 0, 0⟩⟩ 0)
      = scara_limits_set_machine_positions ⟨fun _ => ⟨1, 0⟩, ⟨false, 0, 0⟩⟩ 0 ⟨![3, 4, 5]⟩) := by
  have h := c8_limits_idempotent_passthrough ⟨fun _ => ⟨1, 0⟩, ⟨false, 0, 0⟩⟩ ⟨![3, 4, 5]⟩ 0 rfl
  exact ⟨rfl, h.1, h.2⟩

end Scara

end
